import Mathlib

/-!
Verification development for the `ctabustracker` client library
(`ctabustracker/bustracker.py`).

The library fetches XML documents from the CTA BusTracker HTTP API and
parses them into plain records.  We shallowly embed:

* the XML documents handed to the per-endpoint parsers (a tree of
  elements and text nodes, mirroring what BeautifulSoup produces);
* BeautifulSoup's access primitives used by the source
  (`find`/`findAll` = first/all matching descendant elements in
  document order, `Tag.string`, truthiness of a tag = non-empty
  contents, `tag.<name>` returning `None` when absent so that
  `None.string` raises `AttributeError`);
* Python's `int()` / `float()` / `datetime.strptime` on the shapes of
  strings the source feeds them (`strptime` compiles the two format
  strings the source uses the way `_strptime.TimeRE` does — field
  regexes with alternatives tried in preference order and full
  backtracking across fields, format whitespace as `\s+` — checks for
  unconverted remaining data, and applies the `datetime` constructor's
  validation: `year ≥ MINYEAR`, day within the month, `second ≤ 59`);
* every per-endpoint parsing method, as a function from the parsed
  document to `Except PyError result`, with `PyError` standing for the
  Python exception that would propagate;
* `_grab_url`'s retry loop, as a function of an "attempt oracle"
  (outcome of the k-th `urlopen` call) that also accumulates the total
  time slept.
-/

mutual
/-- An XML node as parsed by BeautifulSoup: an element with a name and
a list of children, or a navigable string.  (The children are a
dedicated list type so that all recursions over the tree are
structural and compute inside the kernel.) -/
inductive Node where
  | elem (name : String) (children : NodeList)
  | text (s : String)
/-- Children of an element, in document order. -/
inductive NodeList where
  | nil
  | cons (head : Node) (tail : NodeList)
end

/-- A tag is identified with its list of children (the element name is
fixed by whichever search produced it). -/
abbrev Tag := NodeList

/-- Build a child list from an ordinary list. -/
def ofList : List Node → NodeList
  | [] => .nil
  | a :: l => .cons a (ofList l)

/-- Leaf element holding a single text child. -/
def leaf (n s : String) : Node := .elem n (.cons (.text s) .nil)

mutual
/-- Descendant elements named `n` of a single node, in document order
(a matching element precedes its own matching descendants). -/
def elemsOfNode (n : String) : Node → List Tag
  | .text _ => []
  | .elem m cs => (if m = n then [cs] else []) ++ elemsIn n cs
/-- All descendant elements named `n` of the nodes of the list, in
document order.  This models `findAll(n)` applied to a tag with these
children. -/
def elemsIn (n : String) : NodeList → List Tag
  | .nil => []
  | .cons a l => elemsOfNode n a ++ elemsIn n l
end

/-- `findAll(n)` on a whole document. -/
def tagsOf (n : String) (doc : Node) : List Tag :=
  match doc with
  | .elem _ cs => elemsIn n cs
  | .text _ => []

/-- `find(n)` inside a tag: first matching descendant element, `None`
when absent. -/
def findIn (n : String) (cs : Tag) : Option Tag :=
  (elemsIn n cs).head?

/-- `find(n)` on a whole document. -/
def findTag (n : String) (doc : Node) : Option Tag :=
  (tagsOf n doc).head?

mutual
/-- `string` of a single node: a string is itself, an element defers
to its children. -/
def nodeString : Node → Option String
  | .text s => some s
  | .elem _ cs => tagString cs
/-- BeautifulSoup `Tag.string`: the only child's string if the tag has
exactly one child, otherwise `None`. -/
def tagString : NodeList → Option String
  | .cons c .nil => nodeString c
  | _ => none
end

/-- `len(tag.contents) == 0`, the complement of a tag's truthiness. -/
def nlIsEmpty : NodeList → Bool
  | .nil => true
  | .cons _ _ => false

/-- Python `str()` applied to a value that is a string or `None`. -/
def pyStr : Option String → String
  | none => "None"
  | some s => s

/-- Python exceptions that the parsing pipeline can raise. -/
inductive PyError where
  /-- `AttributeError`, from `None.string` when `find` fails. -/
  | attributeError
  /-- `TypeError`, e.g. `strptime(None, ...)` or iterating `None`. -/
  | typeError
  /-- `ValueError`, from `int()`, `float()` or `strptime` mismatch. -/
  | valueError
  /-- `IndexError`, from indexing an empty list. -/
  | indexError
  /-- a bare `Exception(msg)` raised by the source. -/
  | exception (msg : String)
deriving DecidableEq, Repr

/-- Digit value of a character. -/
def dval (c : Char) : Nat := c.toNat - 48

/-- Python `int(s)`: optional sign followed by at least one digit
(whitespace and underscore forms are not used by this API's payloads). -/
def pyInt (s : String) : Except PyError Int :=
  let core : List Char → Except PyError Int := fun cs =>
    if cs ≠ [] ∧ cs.all Char.isDigit then
      .ok (cs.foldl (fun a c => a * 10 + (dval c : Int)) 0)
    else .error .valueError
  match s.data with
  | '-' :: cs => (core cs).map (fun v => -v)
  | '+' :: cs => core cs
  | cs => core cs

/-- Value of a digit run as a natural number. -/
def digitsVal (cs : List Char) : Nat :=
  cs.foldl (fun a c => a * 10 + dval c) 0

/-- Python `float(s)` on the decimal forms this API produces:
optional sign, then `digits`, `digits.digits`, `digits.` or `.digits`.
The value is represented exactly as a rational. -/
def pyFloat (s : String) : Except PyError Rat :=
  let core : List Char → Except PyError Rat := fun cs =>
    match cs.splitOn '.' with
    | [ip] =>
        if ip ≠ [] ∧ ip.all Char.isDigit then .ok (mkRat (digitsVal ip) 1)
        else .error .valueError
    | [ip, fp] =>
        if (ip ≠ [] ∨ fp ≠ []) ∧ ip.all Char.isDigit ∧ fp.all Char.isDigit then
          .ok (mkRat (digitsVal ip * 10 ^ fp.length + digitsVal fp) (10 ^ fp.length))
        else .error .valueError
    | _ => .error .valueError
  match s.data with
  | '-' :: cs => (core cs).map (fun v => -v)
  | '+' :: cs => core cs
  | cs => core cs

/-- Python `int(float)`: truncation toward zero. -/
def ratTrunc (q : Rat) : Int := Int.tdiv q.num (q.den : Int)

/-- A naive timestamp, as `datetime` restricted to the fields the two
format strings populate. -/
structure DateTime where
  year : Nat
  month : Nat
  day : Nat
  hour : Nat
  minute : Nat
  second : Nat
deriving DecidableEq, Repr

/-- The characters Python's `str`-mode regex `\s` matches
(`Py_UNICODE_ISSPACE`): ASCII whitespace, the C1 separators, and the
Unicode space characters. -/
def pyIsSpace (c : Char) : Bool :=
  let n := c.toNat
  (0x9 ≤ n ∧ n ≤ 0xd) ∨ (0x1c ≤ n ∧ n ≤ 0x1f) ∨ n = 0x20 ∨ n = 0x85 ∨ n = 0xa0 ∨
  n = 0x1680 ∨ (0x2000 ≤ n ∧ n ≤ 0x200a) ∨ n = 0x2028 ∨ n = 0x2029 ∨ n = 0x202f ∨
  n = 0x205f ∨ n = 0x3000

/-- A two-character regex alternative: both characters must be digits
and satisfy the branch's condition.  (The claims' payloads carry ASCII
digits; other Unicode decimal digits, which `\d` would also accept,
do not occur in them.) -/
def twoDigitAlt (p : Char → Char → Prop) [∀ a b, Decidable (p a b)]
    (val : Char → Char → Nat) : List Char → List (Nat × List Char)
  | c0 :: c1 :: rest =>
      if c0.isDigit ∧ c1.isDigit ∧ p c0 c1 then [(val c0 c1, rest)] else []
  | _ => []

/-- A one-character regex alternative. -/
def oneDigitAlt (p : Char → Prop) [DecidablePred p] (val : Char → Nat) :
    List Char → List (Nat × List Char)
  | c0 :: rest => if c0.isDigit ∧ p c0 then [(val c0, rest)] else []
  | [] => []

/-- `%Y`, regex `\d\d\d\d`: exactly four digits. -/
def mYear : List Char → List (Nat × List Char)
  | c0 :: c1 :: c2 :: c3 :: rest =>
      if c0.isDigit ∧ c1.isDigit ∧ c2.isDigit ∧ c3.isDigit then
        [(digitsVal [c0, c1, c2, c3], rest)]
      else []
  | _ => []

/-- `%m`, regex `1[0-2]|0[1-9]|[1-9]`: alternatives in preference
order. -/
def mMonth (cs : List Char) : List (Nat × List Char) :=
  twoDigitAlt (fun a b => a = '1' ∧ b ≤ '2') (fun _ b => 10 + dval b) cs ++
  twoDigitAlt (fun a b => a = '0' ∧ '1' ≤ b) (fun _ b => dval b) cs ++
  oneDigitAlt (fun a => '1' ≤ a) dval cs

/-- `%d`, regex `3[01]|[12]\d|0[1-9]|[1-9]`. -/
def mDay (cs : List Char) : List (Nat × List Char) :=
  twoDigitAlt (fun a b => a = '3' ∧ b ≤ '1') (fun _ b => 30 + dval b) cs ++
  twoDigitAlt (fun a _ => a = '1' ∨ a = '2') (fun a b => dval a * 10 + dval b) cs ++
  twoDigitAlt (fun a b => a = '0' ∧ '1' ≤ b) (fun _ b => dval b) cs ++
  oneDigitAlt (fun a => '1' ≤ a) dval cs

/-- `%H`, regex `2[0-3]|[0-1]\d|\d`. -/
def mHour (cs : List Char) : List (Nat × List Char) :=
  twoDigitAlt (fun a b => a = '2' ∧ b ≤ '3') (fun _ b => 20 + dval b) cs ++
  twoDigitAlt (fun a _ => a = '0' ∨ a = '1') (fun a b => dval a * 10 + dval b) cs ++
  oneDigitAlt (fun _ => True) dval cs

/-- `%M`, regex `[0-5]\d|\d`. -/
def mMinute (cs : List Char) : List (Nat × List Char) :=
  twoDigitAlt (fun a _ => a ≤ '5') (fun a b => dval a * 10 + dval b) cs ++
  oneDigitAlt (fun _ => True) dval cs

/-- `%S`, regex `6[0-1]|[0-5]\d|\d`. -/
def mSecond (cs : List Char) : List (Nat × List Char) :=
  twoDigitAlt (fun a b => a = '6' ∧ b ≤ '1') (fun _ b => 60 + dval b) cs ++
  twoDigitAlt (fun a _ => a ≤ '5') (fun a b => dval a * 10 + dval b) cs ++
  oneDigitAlt (fun _ => True) dval cs

/-- Length of the leading whitespace run. -/
def wsRun : List Char → Nat
  | c :: l => if pyIsSpace c then wsRun l + 1 else 0
  | [] => 0

/-- `\s+` (format whitespace compiles to this in `TimeRE`): greedy,
so the alternatives are the suffixes after dropping the whole leading
whitespace run first, down to dropping a single character. -/
def mWs (cs : List Char) : List (List Char) :=
  (List.range (wsRun cs)).map (fun i => cs.drop (wsRun cs - i))

/-- Literal character in the format. -/
def pLit (c : Char) : List Char → Option (List Char)
  | c0 :: rest => if c0 = c then some rest else none
  | [] => none

/-- First alternative on which the continuation succeeds — regex
backtracking over an alternation. -/
def firstSome (f : α → Option β) : List α → Option β
  | [] => none
  | a :: l =>
      match f a with
      | some b => some b
      | none => firstSome f l

/-- The compiled pattern of `%Y%m%d %H:%M:%S` (`withSeconds`) or
`%Y%m%d %H:%M`, matched with full backtracking like `re.match`: each
field's alternatives are tried in preference order and a failure of a
later field resumes at the previous field's next alternative.  The
match is chosen without regard to the remainder, which is returned
alongside the captured values. -/
def matchFmt (withSeconds : Bool) (cs : List Char) :
    Option (Nat × Nat × Nat × Nat × Nat × Nat × List Char) :=
  firstSome (fun yr =>
    firstSome (fun mr =>
      firstSome (fun dr =>
        firstSome (fun r4 =>
          firstSome (fun hr =>
            match pLit ':' hr.2 with
            | none => none
            | some r6 =>
                firstSome (fun mir =>
                  if withSeconds then
                    match pLit ':' mir.2 with
                    | none => none
                    | some r8 =>
                        firstSome (fun sr =>
                          some (yr.1, mr.1, dr.1, hr.1, mir.1, sr.1, sr.2))
                          (mSecond r8)
                  else some (yr.1, mr.1, dr.1, hr.1, mir.1, 0, mir.2))
                  (mMinute r6))
            (mHour r4))
          (mWs dr.2))
        (mDay mr.2))
      (mMonth yr.2))
    (mYear cs)

/-- Leap-year rule used by `datetime`'s calendar validation. -/
def isLeap (y : Nat) : Bool := y % 4 = 0 ∧ (y % 100 ≠ 0 ∨ y % 400 = 0)

/-- Days in a month, for the `datetime` constructor's validation. -/
def daysInMonth (y m : Nat) : Nat :=
  if m = 2 then (if isLeap y then 29 else 28)
  else if m = 4 ∨ m = 6 ∨ m = 9 ∨ m = 11 then 30
  else 31

/-- Calendar validation performed by the `datetime` constructor. -/
def validDate (y m d : Nat) : Bool := 1 ≤ d ∧ d ≤ daysInMonth y m

/-- `datetime.strptime(s, fmt)` for the two format strings the source
uses: `%Y%m%d %H:%M:%S` when `withSeconds`, else `%Y%m%d %H:%M`.
`ValueError` is raised when the pattern does not match, when the match
leaves unconverted data, or when the `datetime` constructor rejects
the values (`year ≥ MINYEAR = 1`, day within the month, `second ≤ 59`
— month, hour and minute ranges are already enforced by the regex). -/
def strptime (withSeconds : Bool) (s : String) : Except PyError DateTime :=
  match matchFmt withSeconds s.data with
  | none => .error .valueError
  | some (y, mo, d, h, mi, sec, rest) =>
      if rest = [] ∧ 1 ≤ y ∧ validDate y mo d = true ∧ sec ≤ 59 then
        .ok ⟨y, mo, d, h, mi, sec⟩
      else .error .valueError

/-- `tag.<n>.string` : `AttributeError` when `find` fails (attribute
access on `None`), otherwise the found tag's string. -/
def strAttr (t : Tag) (n : String) : Except PyError (Option String) :=
  match findIn n t with
  | none => .error .attributeError
  | some cs => .ok (tagString cs)

/-- `str(tag.<n>.string)`. -/
def strField (t : Tag) (n : String) : Except PyError String :=
  match strAttr t n with
  | .error e => .error e
  | .ok s => .ok (pyStr s)

/-- `int(tag.<n>.string)`; `int(None)` raises `TypeError`. -/
def intField (t : Tag) (n : String) : Except PyError Int :=
  match strAttr t n with
  | .error e => .error e
  | .ok none => .error .typeError
  | .ok (some s) => pyInt s

/-- `float(tag.<n>.string)`; `float(None)` raises `TypeError`. -/
def floatField (t : Tag) (n : String) : Except PyError Rat :=
  match strAttr t n with
  | .error e => .error e
  | .ok none => .error .typeError
  | .ok (some s) => pyFloat s

/-- `datetime.strptime(tag.<n>.string, fmt)`; `strptime(None, fmt)`
raises `TypeError`. -/
def tsField (withSeconds : Bool) (t : Tag) (n : String) : Except PyError DateTime :=
  match strAttr t n with
  | .error e => .error e
  | .ok none => .error .typeError
  | .ok (some s) => strptime withSeconds s

/-- `bool(tag.find('dly')) and tag.dly.string == 'true'`: a tag is
truthy when its contents are non-empty. -/
def delayedOf (t : Tag) : Bool :=
  match findIn "dly" t with
  | none => false
  | some dcs => !nlIsEmpty dcs && (tagString dcs == some "true")

/-- `mapM` for `Except`, written as plain recursion: the source loops
over the tags and the first raised exception aborts the whole call. -/
def exceptMapM (f : α → Except PyError β) : List α → Except PyError (List β)
  | [] => .ok []
  | a :: l =>
      match f a with
      | .error e => .error e
      | .ok b =>
          match exceptMapM f l with
          | .error e => .error e
          | .ok bs => .ok (b :: bs)

/-- Python `dict` assignment `d[k] = v`: replace in place when the key
exists, else append. -/
def dictInsert (d : List (String × β)) (k : String) (v : β) : List (String × β) :=
  if d.any (fun p => p.1 = k) then
    d.map (fun p => if p.1 = k then (k, v) else p)
  else d ++ [(k, v)]

/-- Build a dict by assigning the pairs left to right. -/
def dictOfPairs (l : List (String × β)) : List (String × β) :=
  l.foldl (fun d p => dictInsert d p.1 p.2) []

/-- A vehicle record, as built by `get_vehicles` / `get_route_vehicles`. -/
structure Vehicle where
  id : String
  last_update : DateTime
  latitude : String
  longitude : String
  heading : Int
  pattern_id : String
  route_id : String
  destination : String
  distance_into_route : Rat
  delayed : Bool
deriving DecidableEq, Repr

/-- The vehicle-record construction shared by `get_vehicles`
(`withSeconds = true`, format `%Y%m%d %H:%M:%S`) and
`get_route_vehicles` (`withSeconds = false`, format `%Y%m%d %H:%M`);
fields are evaluated in the order of the source's dict literal. -/
def parseVehicleWith (withSeconds : Bool) (t : Tag) : Except PyError Vehicle :=
  match strField t "vid" with
  | .error e => .error e
  | .ok vid =>
  match tsField withSeconds t "tmstmp" with
  | .error e => .error e
  | .ok lu =>
  match strField t "lat" with
  | .error e => .error e
  | .ok la =>
  match strField t "lon" with
  | .error e => .error e
  | .ok lo =>
  match intField t "hdg" with
  | .error e => .error e
  | .ok hd =>
  match strField t "pid" with
  | .error e => .error e
  | .ok pid =>
  match strField t "rt" with
  | .error e => .error e
  | .ok rt =>
  match strField t "des" with
  | .error e => .error e
  | .ok des =>
  match floatField t "pdist" with
  | .error e => .error e
  | .ok pd => .ok ⟨vid, lu, la, lo, hd, pid, rt, des, pd, delayedOf t⟩

/-- `get_vehicles` after the fetch: list comprehension over the
`vehicle` tags, timestamps parsed with `%Y%m%d %H:%M:%S`. -/
def getVehiclesParse (doc : Node) : Except PyError (List Vehicle) :=
  exceptMapM (parseVehicleWith true) (tagsOf "vehicle" doc)

/-- `get_route_vehicles` after the fetch: dict keyed by
`str(tag.vid.string)`, timestamps parsed with `%Y%m%d %H:%M`. -/
def getRouteVehiclesParse (doc : Node) : Except PyError (List (String × Vehicle)) :=
  match exceptMapM (parseVehicleWith false) (tagsOf "vehicle" doc) with
  | .error e => .error e
  | .ok vs => .ok (dictOfPairs (vs.map (fun v => (v.id, v))))

/-- `get_time` after the fetch: `strptime(soup.find('tm').string,
'%Y%m%d %H:%M:%S')`. -/
def getTime (doc : Node) : Except PyError DateTime :=
  match findTag "tm" doc with
  | none => .error .attributeError
  | some cs =>
      match tagString cs with
      | none => .error .typeError
      | some s => strptime true s

/-- A stop record, as built by `get_route_stops`. -/
structure Stop where
  id : String
  name : String
  latitude : String
  longitude : String
deriving DecidableEq, Repr

/-- One iteration of `get_route_stops`' loop: the dict entry is built
from `stpid`, `stpnm`, `lat`, `lon`; any `AttributeError` (a missing
tag) is caught and the stop is skipped. -/
def parseStop (t : Tag) : Option (String × Stop) :=
  match findIn "stpid" t, findIn "stpnm" t, findIn "lat" t, findIn "lon" t with
  | some i, some nm, some la, some lo =>
      some (pyStr (tagString i),
        ⟨pyStr (tagString i), pyStr (tagString nm),
         pyStr (tagString la), pyStr (tagString lo)⟩)
  | _, _, _, _ => none

/-- `get_route_stops` after the fetch. -/
def getRouteStops (doc : Node) : List (String × Stop) :=
  dictOfPairs ((tagsOf "stop" doc).filterMap parseStop)

/-- Whether a stop tag has both `lat` and `lon` children (the
"complete coordinates" condition of the spec). -/
def hasCoords (t : Tag) : Bool :=
  (findIn "lat" t).isSome && (findIn "lon" t).isSome

/-- Whether a stop tag has all four children the loop body accesses. -/
def stopComplete (t : Tag) : Bool :=
  (findIn "stpid" t).isSome && (findIn "stpnm" t).isSome &&
  (findIn "lat" t).isSome && (findIn "lon" t).isSome

/-- The key under which a stop tag would be stored. -/
def stopKey (t : Tag) : Option String :=
  (findIn "stpid" t).map (fun i => pyStr (tagString i))

/-- A point of a pattern's path. -/
structure PatternPoint where
  id : String
  type : String
  latitude : String
  longitude : String
  stop_id : Option String
  stop_name : Option String
deriving DecidableEq, Repr

/-- A pattern record, as built by `get_pattern`. -/
structure Pattern where
  id : String
  length : Int
  route_direction : String
  path : List (String × PatternPoint)
deriving DecidableEq, Repr

/-- One iteration of the `pt` loop of `get_pattern`: the path entry
keyed by `str(pt.seq.string)`, with `stop_id`/`stop_name` populated
only when the type is `S`. -/
def parsePt (t : Tag) : Except PyError (String × PatternPoint) :=
  match strField t "seq" with
  | .error e => .error e
  | .ok seq =>
  match strField t "typ" with
  | .error e => .error e
  | .ok typ =>
  match strField t "lat" with
  | .error e => .error e
  | .ok la =>
  match strField t "lon" with
  | .error e => .error e
  | .ok lo =>
      if typ = "S" then
        match strField t "stpid" with
        | .error e => .error e
        | .ok sid =>
        match strField t "stpnm" with
        | .error e => .error e
        | .ok snm => .ok (seq, ⟨seq, typ, la, lo, some sid, some snm⟩)
      else .ok (seq, ⟨seq, typ, la, lo, none, none⟩)

/-- The pattern built from a single `ptr` tag: `pid`, `ln` truncated
from float, `rtdir`, and the path dict over the nested `pt` tags. -/
def parsePtr (t : Tag) : Except PyError Pattern :=
  match strField t "pid" with
  | .error e => .error e
  | .ok pid =>
  match floatField t "ln" with
  | .error e => .error e
  | .ok ln =>
  match strField t "rtdir" with
  | .error e => .error e
  | .ok rtdir =>
  match exceptMapM parsePt (elemsIn "pt" t) with
  | .error e => .error e
  | .ok pts => .ok ⟨pid, ratTrunc ln, rtdir, dictOfPairs pts⟩

/-- `get_pattern` after the fetch: raises when more than one `ptr` tag
is found, then indexes `pattern_tags[0]`. -/
def getPattern (doc : Node) : Except PyError Pattern :=
  let ts := tagsOf "ptr" doc
  if ts.length > 1 then
    .error (.exception "Multiple patterns with the same id?")
  else
    match ts with
    | [] => .error .indexError
    | t :: _ => parsePtr t

/-- A prediction record, as built by `_parse_predictions`. -/
structure Prediction where
  last_update : DateTime
  type : String
  stop_id : String
  stop_name : String
  distance_to_destination : Int
  vehicle_id : String
  route_id : String
  direction : String
  destination : String
  prediction : DateTime
  delayed : Bool
deriving DecidableEq, Repr

/-- One iteration of `_parse_predictions`' loop, fields in the order
of the source's dict literal; both timestamps use `%Y%m%d %H:%M`. -/
def parsePrd (t : Tag) : Except PyError Prediction :=
  match tsField false t "tmstmp" with
  | .error e => .error e
  | .ok lu =>
  match strField t "typ" with
  | .error e => .error e
  | .ok typ =>
  match strField t "stpid" with
  | .error e => .error e
  | .ok sid =>
  match strField t "stpnm" with
  | .error e => .error e
  | .ok snm =>
  match intField t "dstp" with
  | .error e => .error e
  | .ok dstp =>
  match strField t "vid" with
  | .error e => .error e
  | .ok vid =>
  match strField t "rt" with
  | .error e => .error e
  | .ok rt =>
  match strField t "rtdir" with
  | .error e => .error e
  | .ok rtdir =>
  match strField t "des" with
  | .error e => .error e
  | .ok des =>
  match tsField false t "prdtm" with
  | .error e => .error e
  | .ok prdtm => .ok ⟨lu, typ, sid, snm, dstp, vid, rt, rtdir, des, prdtm, delayedOf t⟩

/-- `_parse_predictions` after the fetch. -/
def parsePredictions (doc : Node) : Except PyError (List Prediction) :=
  exceptMapM parsePrd (tagsOf "prd" doc)

/-- A service bulletin record, `affects` pairs are (kind, id). -/
structure ServiceBulletin where
  title : String
  details_full : String
  details_short : String
  priority : String
  affects : List (String × String)
deriving DecidableEq, Repr

/-- The `for elem in tag.srvc` classification: direct children of the
first `srvc` descendant; strings are skipped (their `name` is not a
tag name), `stpid` children become stop entries, `rt` children route
entries, anything else is ignored. -/
def classifySrvc : NodeList → List (String × String)
  | .nil => []
  | .cons (.text _) rest => classifySrvc rest
  | .cons (.elem m cs) rest =>
      (if m = "stpid" then [("stop", pyStr (tagString cs))]
       else if m = "rt" then [("route", pyStr (tagString cs))]
       else []) ++ classifySrvc rest

/-- One iteration of `_parse_service_bulletins`' loop.  Note:
`hasattr(tag, 'srvc')` is always true for a BeautifulSoup tag (missing
tag attributes evaluate to `None` instead of raising), so the loop
`for elem in tag.srvc` runs unconditionally and iterating `None`
raises `TypeError` when no `srvc` descendant exists. -/
def parseSb (t : Tag) : Except PyError ServiceBulletin :=
  match strField t "sbj" with
  | .error e => .error e
  | .ok title =>
  match strField t "dtl" with
  | .error e => .error e
  | .ok dtl =>
  match strField t "brf" with
  | .error e => .error e
  | .ok brf =>
  match strField t "prty" with
  | .error e => .error e
  | .ok prty =>
  match findIn "srvc" t with
  | none => .error .typeError
  | some scs => .ok ⟨title, dtl, brf, prty, classifySrvc scs⟩

/-- `_parse_service_bulletins` after the fetch. -/
def parseServiceBulletins (doc : Node) : Except PyError (List ServiceBulletin) :=
  exceptMapM parseSb (tagsOf "sb" doc)

/-- Outcome of the k-th `urlopen(url, timeout=5)` call: a response, a
`URLError` (the transient kind the loop retries), or any other
exception (which propagates immediately, also inside the loop). -/
inductive FetchOutcome (α : Type) where
  | ok (r : α)
  | urlError (e : Nat)
  | fatal (e : Nat)
deriving DecidableEq, Repr

/-- The error that `_grab_url` lets propagate. -/
inductive FetchErr where
  | url (e : Nat)
  | other (e : Nat)
deriving DecidableEq, Repr

/-- The constructor configuration of `CTABusTracker`.  `retry_urls`
is stored by `__init__`; `_grab_url` reads only the other three
fields. -/
structure RetryConfig where
  retry_urls : Bool
  retry_attempts : Int
  retry_delay : Rat
  retry_backoff : Rat

/-- Result of an attempt made outside the retry guard. -/
def finalize : FetchOutcome α → Except FetchErr α
  | .ok r => .ok r
  | .urlError e => .error (.url e)
  | .fatal e => .error (.other e)

/-- The `while attempts_remaining > 1` loop of `_grab_url`, with the
number of guarded iterations precomputed as
`(attempts_remaining - 1).toNat` (the loop decrements once per
`URLError`).  Returns the call's result and the total time slept. -/
def grabUrlGo (attempt : Nat → FetchOutcome α) (backoff : Rat) :
    Nat → Nat → Rat → Rat → Except FetchErr α × Rat
  | 0, k, _, slept => (finalize (attempt k), slept)
  | fuel + 1, k, delay, slept =>
      match attempt k with
      | .ok r => (.ok r, slept)
      | .fatal e => (.error (.other e), slept)
      | .urlError _ => grabUrlGo attempt backoff fuel (k + 1) (delay * backoff) (slept + delay)

/-- `_grab_url`, as a function of the attempt oracle. -/
def grabUrl (cfg : RetryConfig) (attempt : Nat → FetchOutcome α) :
    Except FetchErr α × Rat :=
  grabUrlGo attempt cfg.retry_backoff (cfg.retry_attempts - 1).toNat 0 cfg.retry_delay 0

/-! ### Helper lemmas -/

theorem tagString_not_nil {cs : Tag} {s : String} (h : tagString cs = some s) :
    nlIsEmpty cs = false := by
  cases cs with
  | nil => simp [tagString] at h
  | cons a l => rfl

theorem exceptMapM_ok_mem {f : α → Except PyError β} :
    ∀ {xs : List α} {ys : List β}, exceptMapM f xs = .ok ys →
      ∀ x ∈ xs, ∃ y, f x = .ok y ∧ y ∈ ys := by
  intro xs
  induction xs with
  | nil => intro ys _ x hx; cases hx
  | cons a l ih =>
      intro ys h x hx
      unfold exceptMapM at h
      cases hfa : f a with
      | error e => rw [hfa] at h; cases h
      | ok b =>
          rw [hfa] at h
          cases hl : exceptMapM f l with
          | error e => rw [hl] at h; cases h
          | ok bs =>
              rw [hl] at h
              injection h with h
              subst h
              rcases List.mem_cons.mp hx with rfl | hx'
              · exact ⟨b, hfa, List.mem_cons_self _ _⟩
              · rcases ih hl x hx' with ⟨y, hy, hym⟩
                exact ⟨y, hy, List.mem_cons_of_mem _ hym⟩

theorem exceptMapM_ok_mem_rev {f : α → Except PyError β} :
    ∀ {xs : List α} {ys : List β}, exceptMapM f xs = .ok ys →
      ∀ y ∈ ys, ∃ x ∈ xs, f x = .ok y := by
  intro xs
  induction xs with
  | nil =>
      intro ys h y hy
      unfold exceptMapM at h
      injection h with h
      subst h
      cases hy
  | cons a l ih =>
      intro ys h y hy
      unfold exceptMapM at h
      cases hfa : f a with
      | error e => rw [hfa] at h; cases h
      | ok b =>
          rw [hfa] at h
          cases hl : exceptMapM f l with
          | error e => rw [hl] at h; cases h
          | ok bs =>
              rw [hl] at h
              injection h with h
              subst h
              rcases List.mem_cons.mp hy with rfl | hy'
              · exact ⟨a, List.mem_cons_self _ _, hfa⟩
              · rcases ih hl y hy' with ⟨x, hx, hfx⟩
                exact ⟨x, List.mem_cons_of_mem _ hx, hfx⟩

theorem keys_dictInsert {β} {d : List (String × β)} {k' : String} {v : β} {k : String} :
    k ∈ (dictInsert d k' v).map Prod.fst ↔ k = k' ∨ k ∈ d.map Prod.fst := by
  unfold dictInsert
  by_cases hmem : d.any (fun p => p.1 = k') = true
  · rw [if_pos hmem]
    have hk' : k' ∈ d.map Prod.fst := by
      simp only [List.any_eq_true, decide_eq_true_eq] at hmem
      rcases hmem with ⟨p, hp, he⟩
      exact List.mem_map.mpr ⟨p, hp, he⟩
    have hfst : (d.map (fun p => if p.1 = k' then (k', v) else p)).map Prod.fst
        = d.map Prod.fst := by
      rw [List.map_map]
      refine List.map_congr_left ?_
      intro p _
      by_cases h : p.1 = k' <;> simp [h]
    rw [hfst]
    constructor
    · exact Or.inr
    · rintro (rfl | h)
      · exact hk'
      · exact h
  · rw [if_neg hmem]
    simp [or_comm]

theorem keys_foldl_dictInsert {β} (l : List (String × β)) :
    ∀ (d : List (String × β)) (k : String),
      k ∈ (l.foldl (fun d p => dictInsert d p.1 p.2) d).map Prod.fst ↔
        k ∈ d.map Prod.fst ∨ k ∈ l.map Prod.fst := by
  induction l with
  | nil => intro d k; simp
  | cons p l ih =>
      intro d k
      rw [List.foldl_cons, ih, keys_dictInsert]
      simp only [List.map_cons, List.mem_cons]
      tauto

theorem keys_dictOfPairs {β} {l : List (String × β)} {k : String} :
    k ∈ (dictOfPairs l).map Prod.fst ↔ k ∈ l.map Prod.fst := by
  unfold dictOfPairs
  rw [keys_foldl_dictInsert]
  simp

theorem tsField_ok {ws : Bool} {t : Tag} {n : String} {d : DateTime}
    (h : tsField ws t n = .ok d) :
    ∃ s, strAttr t n = .ok (some s) ∧ strptime ws s = .ok d := by
  unfold tsField at h
  split at h
  · cases h
  · cases h
  · next s hs => exact ⟨s, hs, h⟩

theorem count_colon_cons_of_ne {c : Char} {l : List Char} (h : c ≠ ':') :
    (c :: l).count ':' = l.count ':' := by
  simp [List.count_cons, Ne.symm h]

theorem isDigit_ne_colon {c : Char} (h : c.isDigit = true) : c ≠ ':' := by
  intro he
  subst he
  exact absurd h (by decide)

theorem pyIsSpace_ne_colon {c : Char} (h : pyIsSpace c = true) : c ≠ ':' := by
  intro he
  subst he
  exact absurd h (by decide)

theorem count_colon_twoDigitAlt {p : Char → Char → Prop} [∀ a b, Decidable (p a b)]
    {val : Char → Char → Nat} {cs : List Char} {pr : Nat × List Char}
    (h : pr ∈ twoDigitAlt p val cs) : cs.count ':' = pr.2.count ':' := by
  unfold twoDigitAlt at h
  split at h
  · split at h
    · next hcond =>
        simp only [List.mem_singleton] at h
        subst h
        rw [count_colon_cons_of_ne (isDigit_ne_colon hcond.1),
          count_colon_cons_of_ne (isDigit_ne_colon hcond.2.1)]
    · simp at h
  · simp at h

theorem count_colon_oneDigitAlt {p : Char → Prop} [DecidablePred p]
    {val : Char → Nat} {cs : List Char} {pr : Nat × List Char}
    (h : pr ∈ oneDigitAlt p val cs) : cs.count ':' = pr.2.count ':' := by
  unfold oneDigitAlt at h
  split at h
  · split at h
    · next hcond =>
        simp only [List.mem_singleton] at h
        subst h
        rw [count_colon_cons_of_ne (isDigit_ne_colon hcond.1)]
    · simp at h
  · simp at h

theorem count_colon_mYear {cs : List Char} {pr : Nat × List Char}
    (h : pr ∈ mYear cs) : cs.count ':' = pr.2.count ':' := by
  unfold mYear at h
  split at h
  · next hcond =>
      split at h
      · next hdig =>
          simp only [List.mem_singleton] at h
          subst h
          rw [count_colon_cons_of_ne (isDigit_ne_colon hdig.1),
            count_colon_cons_of_ne (isDigit_ne_colon hdig.2.1),
            count_colon_cons_of_ne (isDigit_ne_colon hdig.2.2.1),
            count_colon_cons_of_ne (isDigit_ne_colon hdig.2.2.2)]
      · simp at h
  · simp at h

theorem count_colon_mMonth {cs : List Char} {pr : Nat × List Char}
    (h : pr ∈ mMonth cs) : cs.count ':' = pr.2.count ':' := by
  unfold mMonth at h
  rcases List.mem_append.mp h with h2 | h2
  · rcases List.mem_append.mp h2 with h3 | h3
    · exact count_colon_twoDigitAlt h3
    · exact count_colon_twoDigitAlt h3
  · exact count_colon_oneDigitAlt h2

theorem count_colon_mDay {cs : List Char} {pr : Nat × List Char}
    (h : pr ∈ mDay cs) : cs.count ':' = pr.2.count ':' := by
  unfold mDay at h
  rcases List.mem_append.mp h with h2 | h2
  · rcases List.mem_append.mp h2 with h3 | h3
    · rcases List.mem_append.mp h3 with h4 | h4
      · exact count_colon_twoDigitAlt h4
      · exact count_colon_twoDigitAlt h4
    · exact count_colon_twoDigitAlt h3
  · exact count_colon_oneDigitAlt h2

theorem count_colon_mHour {cs : List Char} {pr : Nat × List Char}
    (h : pr ∈ mHour cs) : cs.count ':' = pr.2.count ':' := by
  unfold mHour at h
  rcases List.mem_append.mp h with h2 | h2
  · rcases List.mem_append.mp h2 with h3 | h3
    · exact count_colon_twoDigitAlt h3
    · exact count_colon_twoDigitAlt h3
  · exact count_colon_oneDigitAlt h2

theorem count_colon_mMinute {cs : List Char} {pr : Nat × List Char}
    (h : pr ∈ mMinute cs) : cs.count ':' = pr.2.count ':' := by
  unfold mMinute at h
  rcases List.mem_append.mp h with h2 | h2
  · exact count_colon_twoDigitAlt h2
  · exact count_colon_oneDigitAlt h2

theorem count_colon_mSecond {cs : List Char} {pr : Nat × List Char}
    (h : pr ∈ mSecond cs) : cs.count ':' = pr.2.count ':' := by
  unfold mSecond at h
  rcases List.mem_append.mp h with h2 | h2
  · rcases List.mem_append.mp h2 with h3 | h3
    · exact count_colon_twoDigitAlt h3
    · exact count_colon_twoDigitAlt h3
  · exact count_colon_oneDigitAlt h2

theorem count_colon_drop_ws : ∀ (cs : List Char) (j : Nat), j ≤ wsRun cs →
    (cs.drop j).count ':' = cs.count ':' := by
  intro cs
  induction cs with
  | nil =>
      intro j hj
      simp [wsRun] at hj
      subst hj
      simp
  | cons c l ih =>
      intro j hj
      cases j with
      | zero => simp
      | succ j0 =>
          have hsp : pyIsSpace c = true := by
            by_contra hns
            rw [wsRun, if_neg hns] at hj
            omega
          rw [wsRun, if_pos hsp] at hj
          rw [List.drop_succ_cons, ih j0 (by omega),
            count_colon_cons_of_ne (pyIsSpace_ne_colon hsp)]

theorem count_colon_mWs {cs rest : List Char} (h : rest ∈ mWs cs) :
    cs.count ':' = rest.count ':' := by
  unfold mWs at h
  rcases List.mem_map.mp h with ⟨i, hi, hrw⟩
  subst hrw
  exact (count_colon_drop_ws cs (wsRun cs - i) (Nat.sub_le _ _)).symm

theorem count_colon_pLit {cs rest : List Char} (h : pLit ':' cs = some rest) :
    cs.count ':' = rest.count ':' + 1 := by
  unfold pLit at h
  split at h
  · split at h
    · next hc =>
        injection h with h
        subst h
        subst hc
        simp [List.count_cons]
    · cases h
  · cases h

theorem firstSome_eq_some {f : α → Option β} :
    ∀ {l : List α} {b : β}, firstSome f l = some b → ∃ a ∈ l, f a = some b := by
  intro l
  induction l with
  | nil => intro b h; simp [firstSome] at h
  | cons a t ih =>
      intro b h
      unfold firstSome at h
      cases hfa : f a with
      | some b2 =>
          rw [hfa] at h
          injection h with h
          subst h
          exact ⟨a, List.mem_cons_self _ _, hfa⟩
      | none =>
          rw [hfa] at h
          rcases ih h with ⟨x, hx, hfx⟩
          exact ⟨x, List.mem_cons_of_mem _ hx, hfx⟩

theorem matchFmt_colons {ws : Bool} {cs : List Char} {y mo d h mi sec : Nat}
    {rest : List Char} (hm : matchFmt ws cs = some (y, mo, d, h, mi, sec, rest)) :
    cs.count ':' = rest.count ':' + (if ws then 2 else 1) := by
  unfold matchFmt at hm
  obtain ⟨yr, hy, hm⟩ := firstSome_eq_some hm
  try dsimp only at hm
  obtain ⟨mr, hmo, hm⟩ := firstSome_eq_some hm
  try dsimp only at hm
  obtain ⟨dr, hd, hm⟩ := firstSome_eq_some hm
  try dsimp only at hm
  obtain ⟨r4, hw, hm⟩ := firstSome_eq_some hm
  try dsimp only at hm
  obtain ⟨hr, hh, hm⟩ := firstSome_eq_some hm
  try dsimp only at hm
  have e1 := count_colon_mYear hy
  have e2 := count_colon_mMonth hmo
  have e3 := count_colon_mDay hd
  have e4 := count_colon_mWs hw
  have e5 := count_colon_mHour hh
  cases hc1 : pLit ':' hr.2 with
  | none => rw [hc1] at hm; cases hm
  | some r6 =>
      rw [hc1] at hm
      have e6 := count_colon_pLit hc1
      obtain ⟨mir, hmi, hm⟩ := firstSome_eq_some hm
      try dsimp only at hm
      have e7 := count_colon_mMinute hmi
      cases ws with
      | false =>
          simp only [Bool.false_eq_true, if_false] at hm
          simp only [Option.some.injEq, Prod.mk.injEq] at hm
          obtain ⟨-, -, -, -, -, -, hrest⟩ := hm
          subst hrest
          simp only [Bool.false_eq_true, if_false]
          omega
      | true =>
          simp only [if_true] at hm
          cases hc2 : pLit ':' mir.2 with
          | none => rw [hc2] at hm; cases hm
          | some r8 =>
              rw [hc2] at hm
              have e8 := count_colon_pLit hc2
              obtain ⟨sr, hs, hm⟩ := firstSome_eq_some hm
              try dsimp only at hm
              have e9 := count_colon_mSecond hs
              simp only [Option.some.injEq, Prod.mk.injEq] at hm
              obtain ⟨-, -, -, -, -, -, hrest⟩ := hm
              subst hrest
              simp only [if_true]
              omega

theorem strptime_sec_imp_min_err {s : String} {d : DateTime}
    (h : strptime true s = .ok d) : strptime false s = .error .valueError := by
  unfold strptime at h ⊢
  cases hm1 : matchFmt true s.data with
  | none => rw [hm1] at h; cases h
  | some v1 =>
      obtain ⟨y1, mo1, d1, h1, mi1, sec1, rest1⟩ := v1
      simp only [hm1] at h
      by_cases hcnd : rest1 = [] ∧ 1 ≤ y1 ∧ validDate y1 mo1 d1 = true ∧ sec1 ≤ 59
      · have hcount1 := matchFmt_colons hm1
        rw [hcnd.1] at hcount1
        simp only [List.count_nil, if_true] at hcount1
        cases hm2 : matchFmt false s.data with
        | none => simp only [hm2]
        | some v2 =>
            obtain ⟨y2, mo2, d2, h2, mi2, sec2, rest2⟩ := v2
            simp only [hm2]
            have hcount2 := matchFmt_colons hm2
            simp only [Bool.false_eq_true, if_false] at hcount2
            have hrest2 : rest2 ≠ [] := by
              intro he
              rw [he] at hcount2
              simp only [List.count_nil] at hcount2
              omega
            rw [if_neg (fun hx => hrest2 hx.1)]
      · rw [if_neg hcnd] at h
        cases h

theorem parseVehicleWith_ok_iff {ws : Bool} {t : Tag} {v : Vehicle} :
    parseVehicleWith ws t = .ok v ↔
      strField t "vid" = .ok v.id ∧ tsField ws t "tmstmp" = .ok v.last_update ∧
      strField t "lat" = .ok v.latitude ∧ strField t "lon" = .ok v.longitude ∧
      intField t "hdg" = .ok v.heading ∧ strField t "pid" = .ok v.pattern_id ∧
      strField t "rt" = .ok v.route_id ∧ strField t "des" = .ok v.destination ∧
      floatField t "pdist" = .ok v.distance_into_route ∧ v.delayed = delayedOf t := by
  constructor
  · intro h
    unfold parseVehicleWith at h
    repeat (split at h <;> try injection h)
    subst v
    refine ⟨?_, ?_, ?_, ?_, ?_, ?_, ?_, ?_, ?_, rfl⟩ <;> assumption
  · rintro ⟨h1, h2, h3, h4, h5, h6, h7, h8, h9, h10⟩
    unfold parseVehicleWith
    simp only [h1, h2, h3, h4, h5, h6, h7, h8, h9]
    rw [← h10]

theorem parsePrd_ok_ts {t : Tag} {p : Prediction} (h : parsePrd t = .ok p) :
    tsField false t "tmstmp" = .ok p.last_update ∧
    tsField false t "prdtm" = .ok p.prediction := by
  unfold parsePrd at h
  repeat (split at h <;> try injection h)
  subst p
  exact ⟨by assumption, by assumption⟩

theorem parsePt_key {t : Tag} {pr : String × PatternPoint} (h : parsePt t = .ok pr) :
    strField t "seq" = .ok pr.1 := by
  unfold parsePt at h
  repeat (split at h <;> try injection h)
  all_goals (subst pr; assumption)

theorem parsePtr_ok_path {t : Tag} {p : Pattern} (h : parsePtr t = .ok p) :
    ∃ pts, exceptMapM parsePt (elemsIn "pt" t) = .ok pts ∧ p.path = dictOfPairs pts := by
  unfold parsePtr at h
  repeat (split at h <;> try injection h)
  subst p
  next pts hpts => exact ⟨pts, hpts, rfl⟩

theorem delayedOf_iff {t : Tag} :
    delayedOf t = true ↔ ∃ dcs, findIn "dly" t = some dcs ∧ tagString dcs = some "true" := by
  unfold delayedOf
  cases hf : findIn "dly" t with
  | none => simp
  | some dcs =>
      constructor
      · intro h
        simp only [Bool.and_eq_true, beq_iff_eq] at h
        exact ⟨dcs, rfl, h.2⟩
      · rintro ⟨dcs2, heq, h2⟩
        injection heq with heq
        subst heq
        simp [tagString_not_nil h2, h2]

theorem parseStop_key_iff {t : Tag} {k : String} :
    (∃ st, parseStop t = some (k, st)) ↔ stopComplete t = true ∧ stopKey t = some k := by
  cases h1 : findIn "stpid" t <;> cases h2 : findIn "stpnm" t <;>
    cases h3 : findIn "lat" t <;> cases h4 : findIn "lon" t <;>
    simp [parseStop, stopComplete, stopKey, h1, h2, h3, h4]

theorem grabUrlGo_spec {α} (attempt : Nat → FetchOutcome α) (b : Rat) :
    ∀ (N k0 : Nat) (d slept : Rat),
      (∀ j, j < N → ∃ e, attempt (k0 + j) = .urlError e) →
      grabUrlGo attempt b N k0 d slept =
        (finalize (attempt (k0 + N)), slept + ∑ j ∈ Finset.range N, d * b ^ j) := by
  intro N
  induction N with
  | zero => intro k0 d slept _; simp [grabUrlGo]
  | succ n ih =>
      intro k0 d slept h
      obtain ⟨e, he⟩ := h 0 (Nat.succ_pos n)
      rw [Nat.add_zero] at he
      unfold grabUrlGo
      rw [he]
      rw [ih (k0 + 1) (d * b) (slept + d)
        (by
          intro j hj
          have hh := h (j + 1) (by omega)
          rwa [show k0 + (j + 1) = k0 + 1 + j by omega] at hh)]
      refine Prod.ext ?_ ?_
      · simp only []
        congr 2
        omega
      · simp only []
        rw [Finset.sum_range_succ']
        have hs : ∑ j ∈ Finset.range n, d * b * b ^ j
            = ∑ j ∈ Finset.range n, d * b ^ (j + 1) :=
          Finset.sum_congr rfl (fun j _ => by ring)
        rw [hs]
        ring

/-! ### Claims -/

/-- Attempt oracle whose first `urlopen` call raises `URLError` and
whose later calls succeed. -/
def attOnce : Nat → FetchOutcome Nat := fun k => if k = 0 then .urlError 7 else .ok 42

/-- Claim C1 (status: code_bug).  The claim says that with
`retry_urls = false` a single fetch attempt is made and its transient
error propagates immediately with no sleep.  In the source,
`__init__` stores `retry_urls` but `_grab_url` never consults it:
with `retry_urls = false` and `retry_attempts = 3`, a first-attempt
`URLError` is still retried after sleeping `retry_delay = 3`, and the
call returns the second attempt's response; the result is identical
with the flag set to true. -/
theorem c1_retry_flag_ignored :
    grabUrl ⟨false, 3, 3, 2⟩ attOnce = (.ok 42, 3) ∧
    grabUrl ⟨false, 3, 3, 2⟩ attOnce = grabUrl ⟨true, 3, 3, 2⟩ attOnce := by
  refine ⟨?_, rfl⟩
  have h1 : grabUrl ⟨false, 3, 3, 2⟩ attOnce = (.ok 42, (0 : Rat) + 3) := rfl
  rw [h1]
  norm_num

/-- Claim C2 (status: confirmed).  With retries enabled and
`max_attempts = N + 1`: if the first `N` attempts raise `URLError`
and attempt `N + 1` succeeds, `_grab_url` returns that response and
the total slept delay is `∑ k < N, initial_delay * backoff ^ k`; if
the final attempt also raises a `URLError`, that very error
propagates unmodified (the final attempt sits outside the retry
guard). -/
theorem c2_retry_backoff (N : Nat) (attempt : Nat → FetchOutcome Nat) (d b : Rat)
    (h : ∀ k, k < N → ∃ e, attempt k = .urlError e) :
    (∀ r, attempt N = .ok r →
        grabUrl ⟨true, (N : Int) + 1, d, b⟩ attempt =
          (.ok r, ∑ k ∈ Finset.range N, d * b ^ k)) ∧
    (∀ e, attempt N = .urlError e →
        grabUrl ⟨true, (N : Int) + 1, d, b⟩ attempt =
          (.error (.url e), ∑ k ∈ Finset.range N, d * b ^ k)) := by
  have hfuel : (((N : Int) + 1) - 1).toNat = N := by omega
  have hspec := grabUrlGo_spec attempt b N 0 d 0
    (by intro j hj; simpa using h j hj)
  rw [Nat.zero_add, zero_add] at hspec
  constructor
  · intro r hr
    unfold grabUrl
    simp only [hfuel]
    rw [hspec, hr]
    rfl
  · intro e he
    unfold grabUrl
    simp only [hfuel]
    rw [hspec, he]
    rfl

/-- Attempt oracle for the C2 witness: one `URLError`, then success. -/
def attC2 : Nat → FetchOutcome Nat := fun k => if k = 0 then .urlError 5 else .ok 9

/-- Witness for C2 at `N = 1`, `initial_delay = 3`, `backoff = 2`. -/
theorem c2_retry_backoff_witness :
    grabUrl ⟨true, 2, 3, 2⟩ attC2 = (.ok 9, 3) := by
  have hall : ∀ k, k < 1 → ∃ e, attC2 k = .urlError e := by
    intro k hk
    have hk0 : k = 0 := by omega
    subst hk0
    exact ⟨5, rfl⟩
  have h := (c2_retry_backoff 1 attC2 3 2 hall).1 9 rfl
  rw [show ((1 : Nat) : Int) + 1 = 2 by norm_num] at h
  rw [show (∑ k ∈ Finset.range 1, (3 : Rat) * 2 ^ k) = 3 by simp] at h
  exact h

/-- Service-bulletin document whose `sb` tag has no `srvc` child. -/
def sbDocNoSrvc : Node :=
  .elem "bustime-response"
    (ofList [.elem "sb" (ofList [leaf "sbj" "T", leaf "dtl" "D", leaf "brf" "B", leaf "prty" "P"])])

/-- Service-bulletin document whose `sb` tag has one `srvc` child
containing a `stpid` element, a `rt` element, an unrecognized element
and interspersed text nodes. -/
def sbDocBoth : Node :=
  .elem "bustime-response"
    (ofList [.elem "sb" (ofList [leaf "sbj" "T", leaf "dtl" "D", leaf "brf" "B", leaf "prty" "P",
      .elem "srvc" (ofList [.text "\n", leaf "stpid" "100", .text "\n", leaf "rt" "49",
        .elem "misc" .nil, .text "\n"])])])

/-- Claim C3 (status: code_bug).  When the `srvc` tag is present, its
`stpid`/`rt` children are classified into `affects` in document order
with text nodes and unrecognized elements ignored, as the claim says.
But for an `sb` tag with no `srvc` children, the claim's "empty
affects list" is not what the code does: `hasattr(tag, 'srvc')` is
always true on a BeautifulSoup tag (a missing tag attribute evaluates
to `None` rather than raising), so the guard never fires and
`for elem in tag.srvc` iterates `None`, raising `TypeError`. -/
theorem c3_bulletin_srvc :
    parseServiceBulletins sbDocBoth =
      .ok [⟨"T", "D", "B", "P", [("stop", "100"), ("route", "49")]⟩] ∧
    parseServiceBulletins sbDocNoSrvc = .error .typeError := by
  constructor <;> rfl

/-- The `vehicle` tag of the test fixture in `test.py`. -/
def fixtureVehicleTag : Tag :=
  ofList [leaf "vid" "1870", leaf "tmstmp" "20171112 20:07:47",
   leaf "lat" "41.9783533387265", leaf "lon" "-87.68994619078555",
   leaf "hdg" "334", leaf "pid" "1180", leaf "rt" "49",
   leaf "des" "Berwyn", leaf "pdist" "83642", leaf "dly" "true",
   leaf "tablockid" "49 -503", leaf "tatripid" "67", .elem "zone" .nil]

/-- The same fixture with the `dly` tag removed. -/
def fixtureVehicleTagNoDly : Tag :=
  ofList [leaf "vid" "1870", leaf "tmstmp" "20171112 20:07:47",
   leaf "lat" "41.9783533387265", leaf "lon" "-87.68994619078555",
   leaf "hdg" "334", leaf "pid" "1180", leaf "rt" "49",
   leaf "des" "Berwyn", leaf "pdist" "83642",
   leaf "tablockid" "49 -503", leaf "tatripid" "67", .elem "zone" .nil]

/-- The fixture response document. -/
def fixtureDoc : Node :=
  .elem "bustime-response" (.cons (.elem "vehicle" fixtureVehicleTag) .nil)

/-- The fixture response document without the `dly` tag. -/
def fixtureDocNoDly : Node :=
  .elem "bustime-response" (.cons (.elem "vehicle" fixtureVehicleTagNoDly) .nil)

/-- The record the fixture must parse to. -/
def fixtureVehicle : Vehicle :=
  ⟨"1870", ⟨2017, 11, 12, 20, 7, 47⟩, "41.9783533387265", "-87.68994619078555",
   334, "1180", "49", "Berwyn", 83642, true⟩

/-- The record for the fixture without `dly`. -/
def fixtureVehicleNoDly : Vehicle :=
  ⟨"1870", ⟨2017, 11, 12, 20, 7, 47⟩, "41.9783533387265", "-87.68994619078555",
   334, "1180", "49", "Berwyn", 83642, false⟩

/-- Claim C5 (status: confirmed).  On the fixture vehicle XML,
`get_vehicles` returns exactly one record with the claimed field
values (`delayed = true`), and on the fixture without the `dly` tag
the same record with `delayed = false` and all other fields
unchanged. -/
theorem c5_fixture_vehicle :
    getVehiclesParse fixtureDoc = .ok [fixtureVehicle] ∧
    getVehiclesParse fixtureDocNoDly = .ok [fixtureVehicleNoDly] ∧
    fixtureVehicleNoDly = { fixtureVehicle with delayed := false } := by
  refine ⟨?_, ?_, rfl⟩ <;> rfl

/-- Claim C4 (status: confirmed).  For every vehicle tag that
`get_vehicles` parses successfully, the record's `delayed` field is
true if and only if a `dly` tag is found and its string equals
`"true"`; an absent `dly` tag or any other text yields false. -/
theorem c4_delayed_iff (t : Tag) (v : Vehicle) (h : parseVehicleWith true t = .ok v) :
    v.delayed = true ↔ ∃ dcs, findIn "dly" t = some dcs ∧ tagString dcs = some "true" := by
  have hd : v.delayed = delayedOf t :=
    (parseVehicleWith_ok_iff.mp h).2.2.2.2.2.2.2.2.2
  rw [hd]
  exact delayedOf_iff

/-- Witness for C4 on the fixture vehicle tag. -/
theorem c4_delayed_iff_witness :
    (fixtureVehicle.delayed = true ↔
      ∃ dcs, findIn "dly" fixtureVehicleTag = some dcs ∧ tagString dcs = some "true") ∧
    fixtureVehicle.delayed = true :=
  ⟨c4_delayed_iff fixtureVehicleTag fixtureVehicle rfl, rfl⟩

/-- Claim C10 (status: confirmed).  When the parsed `getpatterns`
response contains zero `ptr` tags, `get_pattern` reaches
`pattern_tags[0]` on an empty list and raises `IndexError` — not a
return value and not the documented ambiguous-id `Exception`. -/
theorem c10_empty_ptr (doc : Node) (h : tagsOf "ptr" doc = []) :
    getPattern doc = .error .indexError := by
  simp [getPattern, h]

/-- Witness for C10 on an empty response document. -/
theorem c10_empty_ptr_witness :
    getPattern (.elem "bustime-response" .nil) = .error .indexError :=
  c10_empty_ptr (.elem "bustime-response" .nil) rfl

/-- Claim C6 (status: confirmed).  `get_pattern` raises the
ambiguous-id `Exception` whenever more than one `ptr` tag is parsed;
with exactly one `ptr` tag it returns the pattern built from that tag,
and the keys of a successfully built pattern's path are exactly the
`str(pt.seq.string)` values of the nested `pt` tags. -/
theorem c6_pattern :
    (∀ doc : Node, 1 < (tagsOf "ptr" doc).length →
        getPattern doc = .error (.exception "Multiple patterns with the same id?")) ∧
    (∀ (doc : Node) (t : Tag), tagsOf "ptr" doc = [t] → getPattern doc = parsePtr t) ∧
    (∀ (t : Tag) (p : Pattern), parsePtr t = .ok p →
        ∀ k, k ∈ p.path.map Prod.fst ↔
          ∃ cs ∈ elemsIn "pt" t, strField cs "seq" = .ok k) := by
  refine ⟨?_, ?_, ?_⟩
  · intro doc h
    simp [getPattern, h]
  · intro doc t h
    simp [getPattern, h]
  · intro t p hp k
    obtain ⟨pts, hpts, hpath⟩ := parsePtr_ok_path hp
    rw [hpath, keys_dictOfPairs]
    constructor
    · intro hk
      rcases List.mem_map.mp hk with ⟨pr, hpr, rfl⟩
      rcases exceptMapM_ok_mem_rev hpts pr hpr with ⟨cs, hcs, hok⟩
      exact ⟨cs, hcs, parsePt_key hok⟩
    · rintro ⟨cs, hcs, hseq⟩
      rcases exceptMapM_ok_mem hpts cs hcs with ⟨pr, hok, hmem⟩
      have hk2 : pr.1 = k := by
        have hkey := parsePt_key hok
        rw [hseq] at hkey
        exact (Except.ok.inj hkey).symm
      exact List.mem_map.mpr ⟨pr, hmem, hk2⟩

/-- A waypoint `pt` tag. -/
def ptTagW : Tag := ofList [leaf "seq" "1", leaf "typ" "W", leaf "lat" "41.9", leaf "lon" "-87.6"]

/-- A stop `pt` tag. -/
def ptTagS : Tag := ofList [leaf "seq" "2", leaf "typ" "S", leaf "lat" "41.8",
  leaf "lon" "-87.7", leaf "stpid" "5", leaf "stpnm" "Main"]

/-- A `ptr` tag with two nested `pt` tags. -/
def ptrTag1 : Tag := ofList [leaf "pid" "1180", leaf "ln" "100.5", leaf "rtdir" "Northbound",
  .elem "pt" ptTagW, .elem "pt" ptTagS]

/-- A `getpatterns` response with exactly one `ptr` tag. -/
def onePtrDoc : Node := .elem "bustime-response" (.cons (.elem "ptr" ptrTag1) .nil)

/-- A `getpatterns` response with two `ptr` tags. -/
def twoPtrDoc : Node :=
  .elem "bustime-response" (.cons (.elem "ptr" ptrTag1) (.cons (.elem "ptr" ptrTag1) .nil))

/-- The pattern built from `ptrTag1` (`ln` 100.5 truncates to 100). -/
def concretePattern : Pattern :=
  ⟨"1180", 100, "Northbound",
   [("1", ⟨"1", "W", "41.9", "-87.6", none, none⟩),
    ("2", ⟨"2", "S", "41.8", "-87.7", some "5", some "Main"⟩)]⟩

/-- Witness for C6 on one- and two-`ptr` documents. -/
theorem c6_pattern_witness :
    getPattern twoPtrDoc = .error (.exception "Multiple patterns with the same id?") ∧
    getPattern onePtrDoc = parsePtr ptrTag1 ∧
    ("2" ∈ concretePattern.path.map Prod.fst ↔
      ∃ cs ∈ elemsIn "pt" ptrTag1, strField cs "seq" = .ok "2") :=
  ⟨c6_pattern.1 twoPtrDoc (by decide), c6_pattern.2.1 onePtrDoc ptrTag1 rfl,
   c6_pattern.2.2 ptrTag1 concretePattern rfl "2"⟩

/-- A `getstops` response with one stop tag that has `stpid`, `lat`
and `lon` children (complete coordinates) but no `stpnm` child. -/
def cstopDoc : Node :=
  .elem "bustime-response"
    (.cons (.elem "stop" (ofList [leaf "stpid" "1", leaf "lat" "2", leaf "lon" "3"])) .nil)

/-- Claim C7 counterexample (status: corrected).  The claim says the
mapping's size equals the number of stop tags with complete
coordinates.  `cstopDoc` has one stop tag with both `lat` and `lon`,
yet the mapping is empty: the loop body also reads `stpnm`, whose
absence raises the same caught `AttributeError` and skips the stop. -/
theorem c7_stops_counterexample :
    getRouteStops cstopDoc = [] ∧
    ((tagsOf "stop" cstopDoc).filter hasCoords).length = 1 := by
  constructor <;> rfl

/-- Claim C7 as amended (status: corrected).  No exception escapes
(`get_route_stops` always returns a mapping), and the mapping's keys
are exactly the `str(stpid.string)` values of the stop tags having
all four of `stpid`, `stpnm`, `lat`, `lon` — so a stop missing
latitude or longitude is indeed excluded, but so is one missing its
id or name, and the size counts distinct keys of fully-complete stops
rather than stop tags with complete coordinates. -/
theorem c7_stops_amended (doc : Node) (k : String) :
    k ∈ (getRouteStops doc).map Prod.fst ↔
      ∃ t ∈ tagsOf "stop" doc, stopComplete t = true ∧ stopKey t = some k := by
  unfold getRouteStops
  rw [keys_dictOfPairs]
  constructor
  · intro hk
    rcases List.mem_map.mp hk with ⟨pr, hpr, rfl⟩
    rcases List.mem_filterMap.mp hpr with ⟨t, ht, hps⟩
    have hex : ∃ st, parseStop t = some (pr.1, st) := ⟨pr.2, by rwa [Prod.mk.eta]⟩
    exact ⟨t, ht, (parseStop_key_iff.mp hex).1, (parseStop_key_iff.mp hex).2⟩
  · rintro ⟨t, ht, hc, hk2⟩
    rcases parseStop_key_iff.mpr ⟨hc, hk2⟩ with ⟨st, hps⟩
    exact List.mem_map.mpr ⟨(k, st), List.mem_filterMap.mpr ⟨t, ht, hps⟩, rfl⟩

/-- A `getstops` response with one fully-complete stop tag. -/
def goodStopDoc : Node :=
  .elem "bustime-response"
    (.cons (.elem "stop" (ofList [leaf "stpid" "1", leaf "stpnm" "N", leaf "lat" "2", leaf "lon" "3"])) .nil)

/-- Witness for the amended C7 on a concrete document. -/
theorem c7_stops_amended_witness :
    "1" ∈ (getRouteStops goodStopDoc).map Prod.fst ↔
      ∃ t ∈ tagsOf "stop" goodStopDoc, stopComplete t = true ∧ stopKey t = some "1" :=
  c7_stops_amended goodStopDoc "1"

/-- All fields of a vehicle record except `last_update`. -/
def vehicleCore (v : Vehicle) :
    String × String × String × Int × String × String × String × Rat × Bool :=
  (v.id, v.latitude, v.longitude, v.heading, v.pattern_id, v.route_id, v.destination,
   v.distance_into_route, v.delayed)

/-- Claim C8 counterexample (status: corrected).  On the fixture
response body (which contains a vehicle tag), `get_vehicles` returns
one record but `get_route_vehicles` raises `ValueError`: its format
string `%Y%m%d %H:%M` rejects the seconds-bearing timestamp — so the
id-keyed mapping never contains the records of `get_vehicles` with
equal `last_update`. -/
theorem c8_variants_counterexample :
    getVehiclesParse fixtureDoc = .ok [fixtureVehicle] ∧
    getRouteVehiclesParse fixtureDoc = .error .valueError ∧
    (tagsOf "vehicle" fixtureDoc).length = 1 := by
  refine ⟨rfl, rfl, rfl⟩

/-- Claim C8 as amended (status: corrected).  The two route-based
call variants agree on every field except `last_update`: per vehicle
tag, both build identical records apart from the timestamp.  But
`get_vehicles` parses `tmstmp` with `%Y%m%d %H:%M:%S` while
`get_route_vehicles` uses `%Y%m%d %H:%M`, and no string satisfies
both formats, so on any response body containing a vehicle tag the
two calls never both succeed — they only agree (vacuously) on bodies
with no vehicle tags. -/
theorem c8_variants_amended :
    (∀ (t : Tag) (f1 f2 : Bool) (v1 v2 : Vehicle),
        parseVehicleWith f1 t = .ok v1 → parseVehicleWith f2 t = .ok v2 →
        vehicleCore v1 = vehicleCore v2) ∧
    (∀ (s : String) (d : DateTime), strptime true s = .ok d →
        strptime false s = .error .valueError) ∧
    (∀ (doc : Node) (vs : List Vehicle) (m : List (String × Vehicle)),
        getVehiclesParse doc = .ok vs → getRouteVehiclesParse doc = .ok m →
        tagsOf "vehicle" doc = [] ∧ vs = [] ∧ m = []) := by
  refine ⟨?_, ?_, ?_⟩
  · intro t f1 f2 v1 v2 h1 h2
    obtain ⟨a1, b1, c1, d1, e1, g1, i1, j1, l1, m1⟩ := parseVehicleWith_ok_iff.mp h1
    obtain ⟨a2, b2, c2, d2, e2, g2, i2, j2, l2, m2⟩ := parseVehicleWith_ok_iff.mp h2
    have hid := Except.ok.inj (a1.symm.trans a2)
    have hla := Except.ok.inj (c1.symm.trans c2)
    have hlo := Except.ok.inj (d1.symm.trans d2)
    have hhd := Except.ok.inj (e1.symm.trans e2)
    have hpi := Except.ok.inj (g1.symm.trans g2)
    have hrt := Except.ok.inj (i1.symm.trans i2)
    have hde := Except.ok.inj (j1.symm.trans j2)
    have hpd := Except.ok.inj (l1.symm.trans l2)
    have hdl := m1.trans m2.symm
    simp [vehicleCore, hid, hla, hlo, hhd, hpi, hrt, hde, hpd, hdl]
  · exact fun s d h => strptime_sec_imp_min_err h
  · intro doc vs m h1 h2
    cases htags : tagsOf "vehicle" doc with
    | nil =>
        unfold getVehiclesParse at h1
        unfold getRouteVehiclesParse at h2
        rw [htags] at h1 h2
        simp [exceptMapM, dictOfPairs] at h1 h2
        exact ⟨rfl, h1, h2⟩
    | cons t rest =>
        exfalso
        unfold getVehiclesParse at h1
        rw [htags] at h1
        obtain ⟨v1, hv1, _⟩ := exceptMapM_ok_mem h1 t (List.mem_cons_self _ _)
        unfold getRouteVehiclesParse at h2
        rw [htags] at h2
        have hmm : ∃ ws, exceptMapM (parseVehicleWith false) (t :: rest) = .ok ws := by
          cases hmm2 : exceptMapM (parseVehicleWith false) (t :: rest) with
          | error e => rw [hmm2] at h2; cases h2
          | ok ws => exact ⟨ws, rfl⟩
        obtain ⟨ws, hws⟩ := hmm
        obtain ⟨v2, hv2, _⟩ := exceptMapM_ok_mem hws t (List.mem_cons_self _ _)
        have ht1 := (parseVehicleWith_ok_iff.mp hv1).2.1
        have ht2 := (parseVehicleWith_ok_iff.mp hv2).2.1
        obtain ⟨s1, ha1, hs1⟩ := tsField_ok ht1
        obtain ⟨s2, ha2, hs2⟩ := tsField_ok ht2
        have hss : s1 = s2 := by
          have := ha1.symm.trans ha2
          exact Option.some.inj (Except.ok.inj this)
        rw [← hss] at hs2
        rw [strptime_sec_imp_min_err hs1] at hs2
        cases hs2

/-- Witness for the amended C8 on concrete inputs. -/
theorem c8_variants_amended_witness :
    vehicleCore fixtureVehicle = vehicleCore fixtureVehicle ∧
    strptime false "20171112 20:07:47" = .error .valueError ∧
    (tagsOf "vehicle" (.elem "bustime-response" .nil) = ([] : List Tag) ∧
      ([] : List Vehicle) = [] ∧ ([] : List (String × Vehicle)) = []) :=
  ⟨c8_variants_amended.1 fixtureVehicleTag true true fixtureVehicle fixtureVehicle rfl rfl,
   c8_variants_amended.2.1 "20171112 20:07:47" ⟨2017, 11, 12, 20, 7, 47⟩ rfl,
   c8_variants_amended.2.2 (.elem "bustime-response" .nil) [] [] rfl rfl⟩

theorem mem_dictInsert {β} {d : List (String × β)} {k : String} {v : β}
    {pr : String × β} (h : pr ∈ dictInsert d k v) : pr ∈ d ∨ pr = (k, v) := by
  unfold dictInsert at h
  split at h
  · rcases List.mem_map.mp h with ⟨q, hq, he⟩
    by_cases hk : q.1 = k
    · rw [if_pos hk] at he
      right
      exact he.symm
    · rw [if_neg hk] at he
      left
      rwa [← he]
  · rcases List.mem_append.mp h with h2 | h2
    · exact Or.inl h2
    · right
      simpa using h2

theorem mem_foldl_dictInsert {β} (l : List (String × β)) :
    ∀ (d : List (String × β)) (pr : String × β),
      pr ∈ l.foldl (fun d p => dictInsert d p.1 p.2) d → pr ∈ d ∨ pr ∈ l := by
  induction l with
  | nil => intro d pr h; exact Or.inl h
  | cons p t ih =>
      intro d pr h
      rw [List.foldl_cons] at h
      rcases ih _ pr h with h2 | h2
      · rcases mem_dictInsert h2 with h3 | h3
        · exact Or.inl h3
        · right
          rw [h3]
          exact List.mem_cons_self _ _
      · exact Or.inr (List.mem_cons_of_mem _ h2)

theorem mem_dictOfPairs {β} {l : List (String × β)} {pr : String × β}
    (h : pr ∈ dictOfPairs l) : pr ∈ l := by
  rcases mem_foldl_dictInsert l [] pr h with h2 | h2
  · cases h2
  · exact h2

/-- Claim C9 (status: confirmed).  Each timestamp-bearing tag is
parsed with its endpoint's fixed format (`tm` with `%Y%m%d %H:%M:%S`
in `get_time`, `tmstmp` with `%Y%m%d %H:%M:%S` in `get_vehicles`,
`tmstmp` with `%Y%m%d %H:%M` in `get_route_vehicles`, `tmstmp` and
`prdtm` with `%Y%m%d %H:%M` in `_parse_predictions`): a non-matching
text makes the call raise `ValueError`, and every timestamp in a
returned record is the image of a successful parse — never a
substituted default. -/
theorem c9_timestamps :
    (∀ (doc : Node) (cs : Tag) (s : String),
        findTag "tm" doc = some cs → tagString cs = some s →
        strptime true s = .error .valueError → getTime doc = .error .valueError) ∧
    (∀ (doc : Node) (d : DateTime), getTime doc = .ok d →
        ∃ cs s, findTag "tm" doc = some cs ∧ tagString cs = some s ∧
          strptime true s = .ok d) ∧
    (∀ (doc : Node) (ps : List Prediction), parsePredictions doc = .ok ps →
        ∀ p ∈ ps, (∃ s, strptime false s = .ok p.last_update) ∧
          (∃ s, strptime false s = .ok p.prediction)) ∧
    (∀ (doc : Node) (cs : Tag) (s : String), cs ∈ tagsOf "prd" doc →
        strAttr cs "tmstmp" = .ok (some s) → strptime false s = .error .valueError →
        ∀ ps, parsePredictions doc ≠ .ok ps) ∧
    (∀ (doc : Node) (vs : List Vehicle), getVehiclesParse doc = .ok vs →
        ∀ v ∈ vs, ∃ s, strptime true s = .ok v.last_update) ∧
    (∀ (doc : Node) (m : List (String × Vehicle)), getRouteVehiclesParse doc = .ok m →
        ∀ pr ∈ m, ∃ s, strptime false s = .ok pr.2.last_update) := by
  refine ⟨?_, ?_, ?_, ?_, ?_, ?_⟩
  · intro doc cs s h1 h2 h3
    simp [getTime, h1, h2, h3]
  · intro doc d h
    unfold getTime at h
    split at h
    · cases h
    · next cs hcs =>
        split at h
        · cases h
        · next s hs => exact ⟨cs, s, hcs, hs, h⟩
  · intro doc ps h p hp
    obtain ⟨cs, _, hok⟩ := exceptMapM_ok_mem_rev h p hp
    obtain ⟨h1, h2⟩ := parsePrd_ok_ts hok
    obtain ⟨s1, _, hs1⟩ := tsField_ok h1
    obtain ⟨s2, _, hs2⟩ := tsField_ok h2
    exact ⟨⟨s1, hs1⟩, ⟨s2, hs2⟩⟩
  · intro doc cs s hmem hattr herr ps hok
    obtain ⟨p, hp, _⟩ := exceptMapM_ok_mem hok cs hmem
    obtain ⟨h1, _⟩ := parsePrd_ok_ts hp
    obtain ⟨s2, ha2, hs2⟩ := tsField_ok h1
    have hss : s = s2 := Option.some.inj (Except.ok.inj (hattr.symm.trans ha2))
    rw [← hss, herr] at hs2
    cases hs2
  · intro doc vs h v hv
    obtain ⟨cs, _, hok⟩ := exceptMapM_ok_mem_rev h v hv
    have ht := (parseVehicleWith_ok_iff.mp hok).2.1
    obtain ⟨s, _, hs⟩ := tsField_ok ht
    exact ⟨s, hs⟩
  · intro doc m h pr hpr
    unfold getRouteVehiclesParse at h
    cases hvs : exceptMapM (parseVehicleWith false) (tagsOf "vehicle" doc) with
    | error e => rw [hvs] at h; cases h
    | ok vs =>
        rw [hvs] at h
        injection h with h
        subst h
        have hpr2 := mem_dictOfPairs hpr
        rcases List.mem_map.mp hpr2 with ⟨v, hv, he⟩
        obtain ⟨cs, _, hok⟩ := exceptMapM_ok_mem_rev hvs v hv
        have ht := (parseVehicleWith_ok_iff.mp hok).2.1
        obtain ⟨s, _, hs⟩ := tsField_ok ht
        rw [← he]
        exact ⟨s, hs⟩


/-- A `gettime` response whose `tm` text is malformed. -/
def tmDocBad : Node := .elem "bustime-response" (.cons (leaf "tm" "garbage") .nil)

/-- A well-formed `gettime` response. -/
def tmDocGood : Node := .elem "bustime-response" (.cons (leaf "tm" "20171112 20:07:47") .nil)

/-- A well-formed `prd` tag. -/
def prdTagGood : Tag := ofList [leaf "tmstmp" "20171112 20:07", leaf "typ" "A",
  leaf "stpid" "1", leaf "stpnm" "N", leaf "dstp" "100", leaf "vid" "9",
  leaf "rt" "49", leaf "rtdir" "East", leaf "des" "D", leaf "prdtm" "20171112 20:30"]

/-- A well-formed `getpredictions` response. -/
def prdDocGood : Node := .elem "bustime-response" (.cons (.elem "prd" prdTagGood) .nil)

/-- The prediction record parsed from `prdTagGood`. -/
def prdRec : Prediction :=
  ⟨⟨2017, 11, 12, 20, 7, 0⟩, "A", "1", "N", 100, "9", "49", "East", "D",
   ⟨2017, 11, 12, 20, 30, 0⟩, false⟩

/-- A `prd` tag whose `tmstmp` text is malformed. -/
def prdTagBad : Tag := ofList [leaf "tmstmp" "nope"]

/-- A `getpredictions` response containing `prdTagBad`. -/
def prdDocBad : Node := .elem "bustime-response" (.cons (.elem "prd" prdTagBad) .nil)

/-- A vehicle tag whose `tmstmp` carries the minutes-resolution
format that `get_route_vehicles` expects. -/
def vehicleTagMin : Tag :=
  ofList [leaf "vid" "1870", leaf "tmstmp" "20171112 20:07",
   leaf "lat" "41.9783533387265", leaf "lon" "-87.68994619078555",
   leaf "hdg" "334", leaf "pid" "1180", leaf "rt" "49",
   leaf "des" "Berwyn", leaf "pdist" "83642", leaf "dly" "true"]

/-- A `getvehicles` response holding `vehicleTagMin`. -/
def vehicleDocMin : Node :=
  .elem "bustime-response" (.cons (.elem "vehicle" vehicleTagMin) .nil)

/-- The record `get_route_vehicles` builds from `vehicleTagMin`. -/
def vehicleMinRec : Vehicle :=
  ⟨"1870", ⟨2017, 11, 12, 20, 7, 0⟩, "41.9783533387265", "-87.68994619078555",
   334, "1180", "49", "Berwyn", 83642, true⟩

/-- Witness for C9, applying each conjunct at a concrete document. -/
theorem c9_timestamps_witness :
    getTime tmDocBad = .error .valueError ∧
    (∃ cs s, findTag "tm" tmDocGood = some cs ∧ tagString cs = some s ∧
      strptime true s = .ok ⟨2017, 11, 12, 20, 7, 47⟩) ∧
    (∀ p ∈ [prdRec], (∃ s, strptime false s = .ok p.last_update) ∧
      (∃ s, strptime false s = .ok p.prediction)) ∧
    (∀ ps, parsePredictions prdDocBad ≠ .ok ps) ∧
    (∀ v ∈ [fixtureVehicle], ∃ s, strptime true s = .ok v.last_update) ∧
    (∀ pr ∈ [("1870", vehicleMinRec)], ∃ s, strptime false s = .ok pr.2.last_update) :=
  ⟨c9_timestamps.1 tmDocBad (.cons (.text "garbage") .nil) "garbage" rfl rfl rfl,
   c9_timestamps.2.1 tmDocGood ⟨2017, 11, 12, 20, 7, 47⟩ rfl,
   c9_timestamps.2.2.1 prdDocGood [prdRec] rfl,
   c9_timestamps.2.2.2.1 prdDocBad prdTagBad "nope" (List.mem_cons_self _ _) rfl rfl,
   c9_timestamps.2.2.2.2.1 fixtureDoc [fixtureVehicle] rfl,
   c9_timestamps.2.2.2.2.2 vehicleDocMin [("1870", vehicleMinRec)] rfl⟩
